import Mathlib

/-!
Verification development for the template-automation repository
(src/update_logic.py, src/Template_Automation.py).

Cells of the tabular data are modelled by `Value`; a pandas NaN is
`Value.na`.  A row is an association list from column name to value; a
DataFrame is a column schema together with its rows.  Each operation of
update_logic.py is translated into an executable Lean function; fallible
template reads (pd.read_excel of the template header row) are passed in
as an `Except String` argument so that Python exception propagation
versus try/except conversion is visible in the return type.
-/

set_option autoImplicit false

deriving instance DecidableEq for Except

namespace UpdateLogic

/-- Model of a scalar cell value; `na` is a pandas missing value (NaN). -/
inductive Value where
  | na : Value
  | str : String → Value
  | int : Int → Value
  | bool : Bool → Value
deriving DecidableEq

/-- Python str() of a value; str(np.nan) is "nan", str(True) is "True". -/
def pyStr : Value → String
  | .na => "nan"
  | .str s => s
  | .int n => toString n
  | .bool true => "True"
  | .bool false => "False"

/-- Model of pd.isna on a scalar. -/
def Value.isna : Value → Bool
  | .na => true
  | _ => false

/-- ASCII whitespace test, modelling the characters str.strip removes. -/
def isSpaceChar (c : Char) : Bool :=
  c == ' ' || c == '\t' || c == '\n' || c == '\r' ||
    c == Char.ofNat 11 || c == Char.ofNat 12

/-- Python str.strip(): whitespace removed from both ends. -/
def pyTrim (s : String) : String :=
  ⟨((s.data.dropWhile isSpaceChar).reverse.dropWhile isSpaceChar).reverse⟩

/-- Uppercasing of one ASCII character, as str.upper acts on it. -/
def upChar (c : Char) : Char :=
  if 'a' ≤ c ∧ c ≤ 'z' then Char.ofNat (c.toNat - 32) else c

/-- Lowercasing of one ASCII character, as str.lower acts on it. -/
def lowChar (c : Char) : Char :=
  if 'A' ≤ c ∧ c ≤ 'Z' then Char.ofNat (c.toNat + 32) else c

/-- Python str.upper() over the characters of a string. -/
def pyUpper (s : String) : String :=
  ⟨s.data.map upChar⟩

/-- Python str.lower() over the characters of a string. -/
def pyLower (s : String) : String :=
  ⟨s.data.map lowChar⟩

/-- Translation of normalize_value (src/update_logic.py lines 159-164):
NaN is returned unchanged, a bool becomes its uppercased str() form, and
any other value becomes its stripped uppercased str() form. -/
def normalize_value : Value → Value
  | .na => .na
  | .bool b => .str (pyUpper (pyStr (.bool b)))
  | .str s => .str (pyUpper (pyTrim s))
  | .int n => .str (pyUpper (pyTrim (toString n)))

/-- Translation of is_blank (src/update_logic.py lines 166-171): NaN, or a
string that strips to the empty string. -/
def is_blank : Value → Bool
  | .na => true
  | .str s => pyTrim s == ""
  | _ => false

/-- Guarded comparison used by the source-vs-default check (line 230) and
the fixed-value check (line 275): the value is compared, and flagged on
mismatch, exactly when pd.notnull(val) holds. -/
def source_default_mismatch (val expected : Value) : Bool :=
  !val.isna && decide (normalize_value val ≠ normalize_value expected)

/-- Mask used by the Temp ID backfill (for example line 375):
output_df.isna() or astype(str).str.strip() == ''. -/
def temp_id_blank (v : Value) : Bool :=
  v.isna || (pyTrim (pyStr v) == "")

/-- Sequential fill of the blank positions of a column, next counter value
first: models output_df.loc[mask, .] = range(n, n + mask.sum()). -/
def fill_blanks (n : Int) : List Value → List Value
  | [] => []
  | v :: vs =>
      if temp_id_blank v then Value.int n :: fill_blanks (n + 1) vs
      else v :: fill_blanks n vs

/-- Translation of the Temp ID block shared by every synthesis variant
(src/update_logic.py lines 372-379, 424-431, 453-460, 484-491, 520-527):
if the originating record set has no Temp ID column, the whole output
column becomes range(5001, 5001 + len); otherwise only the blank
positions are filled from the counter 5001. -/
def temp_id_logic (srcHasTempId : Bool) (col : List Value) : List Value :=
  if srcHasTempId then
    if col.any temp_id_blank then fill_blanks 5001 col else col
  else
    (List.range col.length).map (fun (i : Nat) => Value.int (5001 + (i : Int)))

/-- Values of the output column at the positions that were blank in the
original column, in order. -/
def blank_position_values (orig out : List Value) : List Value :=
  ((orig.zip out).filter (fun p => temp_id_blank p.1)).map Prod.snd

/-- A row: association list from column name to cell value. -/
def Row : Type := List (String × Value)

instance : DecidableEq Row := by
  unfold Row
  infer_instance

/-- Cell access on a row; a column absent from the row reads as NaN. -/
def cellOf (r : Row) (c : String) : Value :=
  (r.lookup c).getD Value.na

/-- A DataFrame: the column schema together with the data rows. -/
structure DataFrame where
  cols : List String
  rows : List Row

/-- Positional row access, as pandas positional alignment of equal-length
ranges; out-of-range reads as an empty row (all cells NaN). -/
def dfRow (df : DataFrame) (i : Nat) : Row :=
  df.rows.getD i []

/-- Cell of the i-th row of a frame. -/
def dfCell (df : DataFrame) (i : Nat) (c : String) : Value :=
  cellOf (dfRow df i) c

/-- Update every binding of a column inside one row. -/
def set_cell (r : Row) (c : String) (v : Value) : Row :=
  r.map (fun p => if p.1 = c then (p.1, v) else p)

/-- Overwrite one column of a row list from a column of values, by
position. -/
def set_col (rows : List Row) (c : String) (vals : List Value) : List Row :=
  List.zipWith (fun r v => set_cell r c v) rows vals

/-- Apply the shared Temp ID block to synthesized output rows: when the
output schema holds a Temp ID column, its column of values is rewritten
by `temp_id_logic`, keyed on whether the originating record set has a
Temp ID column. -/
def apply_temp_id (srcCols headers : List String) (rows : List Row) : List Row :=
  if "Temp ID" ∈ headers then
    set_col rows "Temp ID" (temp_id_logic ("Temp ID" ∈ srcCols) (rows.map (fun r => cellOf r "Temp ID")))
  else rows

-- Configuration Registry constants (TEMPLATE_CONFIGS, src/update_logic.py
-- lines 22-98), for the variants the claims exercise.

/-- Default values of the Service Plan template type. -/
def service_plan_defaults : List (String × String) :=
  [("SVMXC__Active__c", "TRUE"),
   ("Business_Unit__c", "HCS"),
   ("HCS_Related_To__c", "Service Contract"),
   ("GS_Rev_Rec_Method__c", "Straight Line"),
   ("Extend_to_End_of_Month__c", "FALSE"),
   ("SVMXC__Labor_Rounding_Type__c", "Actuals"),
   ("SVMXC__Travel_Rounding_Type__c", "Actuals")]

/-- The five per-record override fields applied to warranty-named Service
Plan records (src/update_logic.py lines 412-418). -/
def warranty_overrides : List (String × String) :=
  [("GS_Rev_Rec_Method__c", "Warranty"),
   ("HCS_Related_To__c", "Warranty"),
   ("Account_Type__c", "Customer"),
   ("Duration_months__c", "12"),
   ("Start_Date__c", "eOM Warranty Start Date")]

/-- Column mapping of the Parts Pricing template type. -/
def parts_pricing_mapping : List (String × String) :=
  [("Pricing_Type__c", "Coverage_Type__c"),
   ("Service_Offering__c", "SVMXC__Available_Services__c (Name)"),
   ("Unit_Type__c", "GEHCS_Unit_Type__c")]

/-- Column mapping of the Labor Pricing template type. -/
def labor_pricing_mapping : List (String × String) :=
  [("Service_Offering__c", "SVMXC__Available_Services__c (Name)"),
   ("Unit_Type__c", "GEHCS_Unit_Type__c")]

-- Service Plan variant (update_service_plan, lines 399-435).

/-- Prefix test on character lists, used for substring search. -/
def leadsWith : List Char → List Char → Bool
  | [], _ => true
  | _ :: _, [] => false
  | p :: ps, c :: cs => p == c && leadsWith ps cs

/-- Substring membership test on character lists. -/
def hasSub (pat : List Char) : List Char → Bool
  | [] => pat.isEmpty
  | c :: cs => leadsWith pat (c :: cs) || hasSub pat cs

/-- Python substring containment s2 in s1. -/
def strContains (s1 s2 : String) : Bool :=
  hasSub s2.toList s1.toList

/-- Name of a Service Plan record as the Python code reads it:
str(row[Name]) unless NaN, in which case the empty string (line 409). -/
def record_name (r : Row) : String :=
  if (cellOf r "Name").isna then "" else pyStr (cellOf r "Name")

/-- Warranty detection (line 411): the lower-cased name contains the
substring warranty. -/
def warranty_name (r : Row) : Bool :=
  strContains (pyLower (record_name r)) "warranty"

/-- Per-record defaults of a Service Plan record: the configured defaults,
updated with the five warranty overrides when the name matches
(lines 410-418); dict update semantics, override keys win. -/
def row_defaults (warranty : Bool) (c : String) : Option String :=
  if warranty then
    match warranty_overrides.lookup c with
    | some v => some v
    | none => service_plan_defaults.lookup c
  else service_plan_defaults.lookup c

/-- Cell fill of the Service Plan variant (lines 419-423): a per-record
default wins, else a same-named source column, else the cell stays NaN. -/
def service_plan_cell (srcCols : List String) (r : Row) (c : String) : Value :=
  match row_defaults (warranty_name r) c with
  | some v => .str v
  | none => if c ∈ srcCols then cellOf r c else .na

/-- One synthesized Service Plan output row over the template schema. -/
def service_plan_row (headers srcCols : List String) (r : Row) : Row :=
  headers.map (fun c => (c, service_plan_cell srcCols r c))

/-- First-occurrence deduplication by a key, with the already-seen key
set threaded through: models DataFrame.drop_duplicates with keep first
(line 403). -/
def drop_duplicates_first (key : Row → Value) (seen : List Value) : List Row → List Row
  | [] => []
  | r :: rs =>
      if key r ∈ seen then drop_duplicates_first key seen rs
      else r :: drop_duplicates_first key (key r :: seen) rs

/-- Key of the Service Plan deduplication: the Name cell. -/
def nameKey (r : Row) : Value := cellOf r "Name"

/-- unique_df of update_service_plan: source rows deduplicated by Name,
keeping the first occurrence, order preserved. -/
def service_plan_unique (rows : List Row) : List Row :=
  drop_duplicates_first nameKey [] rows

/-- Result dictionary of generic_update_logic and update_service_plan:
status flag, record count and optional error message. -/
structure UpdateResult where
  status : Bool
  record_count : Nat
  error : Option String
deriving DecidableEq

/-- Full update_service_plan (lines 399-435).  The Name check comes
first and raises (an error value escapes); only then is the template
header row read, a read whose failure also escapes because the function
body has no try/except.  On success the function returns the status
dictionary together with the rows written to the template. -/
def update_service_plan (hdrs : Except String (List String)) (src : DataFrame) :
    Except String (UpdateResult × List Row) :=
  if "Name" ∈ src.cols then
    let uniq := service_plan_unique src.rows
    match hdrs with
    | .error e => .error e
    | .ok headers =>
        let out := apply_temp_id src.cols headers (uniq.map (service_plan_row headers src.cols))
        .ok ({ status := true, record_count := uniq.length, error := none }, out)
  else .error "Source DataFrame must contain a Name column for service plan uniqueness."

-- Generic variant (generic_update_logic, lines 348-388).

/-- Direct same-named column fill of the generic variant: source column
first, then reference column, else NaN (lines 361-364). -/
def generic_direct_cell (src : DataFrame) (ref : Option DataFrame) (i : Nat) (c : String) : Value :=
  if c ∈ src.cols then dfCell src i c
  else
    match ref with
    | some rf => if c ∈ rf.cols then dfCell rf i c else .na
    | none => .na

/-- Mapped column fill of the generic variant (lines 354-364): the mapped
source column from the source frame, else from the reference frame, else
the direct same-named fill. -/
def generic_map_cell (src : DataFrame) (ref : Option DataFrame)
    (cm : List (String × String)) (i : Nat) (c : String) : Value :=
  match cm.lookup c with
  | some s =>
      if s ∈ src.cols then dfCell src i s
      else
        match ref with
        | some rf =>
            if s ∈ rf.cols then dfCell rf i s
            else generic_direct_cell src ref i c
        | none => generic_direct_cell src ref i c
  | none => generic_direct_cell src ref i c

/-- Cell fill of the generic variant: the whole mapping block runs only
when the column mapping dictionary is non-empty (line 354), and a
configured default value then unconditionally overwrites the column
(lines 367-370, also guarded by dictionary truthiness). -/
def generic_cell (src : DataFrame) (ref : Option DataFrame)
    (cm dv : List (String × String)) (i : Nat) (c : String) : Value :=
  let mapped := if cm.isEmpty then .na else generic_map_cell src ref cm i c
  if dv.isEmpty then mapped
  else
    match dv.lookup c with
    | some d => .str d
    | none => mapped

/-- Output rows of the generic variant before the Temp ID block: one row
per source row, shaped to the template schema. -/
def generic_output (headers : List String) (src : DataFrame) (ref : Option DataFrame)
    (cm dv : List (String × String)) : List Row :=
  (List.range src.rows.length).map
    (fun i => headers.map (fun c => (c, generic_cell src ref cm dv i c)))

/-- Full generic_update_logic: the body is wrapped in try/except, so a
failing template read is converted into a status-false result dictionary
carrying the message (line 388) instead of escaping; nothing is written
in that case. -/
def generic_update_logic (hdrs : Except String (List String)) (src : DataFrame)
    (cm dv : List (String × String)) (ref : Option DataFrame) :
    UpdateResult × Option (List Row) :=
  match hdrs with
  | .error e => ({ status := false, record_count := 0, error := some e }, none)
  | .ok headers =>
      let out := apply_temp_id src.cols headers (generic_output headers src ref cm dv)
      ({ status := true, record_count := src.rows.length, error := none }, some out)

-- Row-filtering variants (update_parts_pricing lines 466-495,
-- update_labor_pricing lines 497-531).

/-- Flag test of the row filter: Series.str.lower() == yes, which is true
only for string cells whose lower-casing is yes (non-strings lower to
NaN and fail the comparison). -/
def need_yes (v : Value) : Bool :=
  match v with
  | .str s => pyLower s == "yes"
  | _ => false

/-- Source rows retained by the Parts Pricing filter (line 470). -/
def parts_filtered (src : DataFrame) : List Row :=
  src.rows.filter (fun r => need_yes (cellOf r "Need parts pricing"))

/-- Full update_parts_pricing, up to its boolean return value.  When the
flag column is missing, source_df.get returns the empty string and the
.str accessor raises an AttributeError that escapes (no try/except).
When no row qualifies the function returns False before the template is
ever read or written; otherwise the template header read happens, whose
failure escapes, and on success True is returned. -/
def update_parts_pricing (hdrs : Except String (List String)) (src : DataFrame) :
    Except String Bool :=
  if "Need parts pricing" ∈ src.cols then
    if (parts_filtered src).isEmpty then .ok false
    else
      match hdrs with
      | .error e => .error e
      | .ok _ => .ok true
  else .error "AttributeError: Can only use .str accessor with string values"

/-- Source rows retained by the Labor Pricing filter (line 501). -/
def labor_filtered (src : DataFrame) : List Row :=
  src.rows.filter (fun r => need_yes (cellOf r "Need labor pricing"))

/-- Cell fill of the Labor Pricing expansion loop (lines 510-518): the
Labor_Type__c column takes the sub-row marker, then a direct source
column wins, then a mapped source column, then a configured default,
else NaN. -/
def labor_cell (srcCols : List String) (cm dv : List (String × String))
    (r : Row) (lt : String) (c : String) : Value :=
  if c = "Labor_Type__c" then .str lt
  else if c ∈ srcCols then cellOf r c
  else
    match cm.lookup c with
    | some s =>
        if s ∈ srcCols then cellOf r s
        else
          match dv.lookup c with
          | some d => .str d
          | none => .na
    | none =>
        match dv.lookup c with
        | some d => .str d
        | none => .na

/-- One expanded Labor Pricing output row over the template schema. -/
def labor_row (headers srcCols : List String) (cm dv : List (String × String))
    (r : Row) (lt : String) : Row :=
  headers.map (fun c => (c, labor_cell srcCols cm dv r lt c))

/-- The row-expansion loop (lines 506-519): each retained source row
yields two consecutive output rows, marked Labor then Travel. -/
def labor_expand (headers srcCols : List String) (cm dv : List (String × String)) :
    List Row → List Row
  | [] => []
  | r :: rs =>
      labor_row headers srcCols cm dv r "Labor" ::
      labor_row headers srcCols cm dv r "Travel" ::
      labor_expand headers srcCols cm dv rs

/-- Full update_labor_pricing, returning the written rows on success.
Same boundary behavior as update_parts_pricing: missing flag column and
template read failures escape, an empty filter result returns False
(with nothing written) before the template is touched. -/
def update_labor_pricing (hdrs : Except String (List String)) (src : DataFrame) :
    Except String (Option (List Row)) :=
  if "Need labor pricing" ∈ src.cols then
    let filtered := labor_filtered src
    if filtered.isEmpty then .ok none
    else
      match hdrs with
      | .error e => .error e
      | .ok headers =>
          .ok (some (apply_temp_id src.cols headers
            (labor_expand headers src.cols labor_pricing_mapping [] filtered)))
  else .error "AttributeError: Can only use .str accessor with string values"

-- Validation Engine (validate_template_logic, lines 186-345).

/-- Columns of a frame holding at least one non-NaN value (line 223). -/
def relevant_columns (df : DataFrame) : List String :=
  df.cols.filter (fun c => df.rows.any (fun r => !(cellOf r c).isna))

/-- Key columns of the duplicate check: the unique-designated columns
that are relevant in the data (line 224). -/
def key_columns (uniqueRules : List String) (df : DataFrame) : List String :=
  uniqueRules.filter (fun c => c ∈ relevant_columns df)

/-- Key tuple of one row over the key columns. -/
def key_tuple (keys : List String) (r : Row) : List Value :=
  keys.map (cellOf r)

/-- Translation of df.duplicated(subset=key_columns, keep=False): a row
is flagged exactly when its key tuple occurs at least twice in the
frame.  pandas treats equal NaN keys as duplicates of each other, as
does equality on `Value`. -/
def dup_flags (keys : List String) (rows : List Row) : List Bool :=
  rows.map (fun r =>
    decide (2 ≤ rows.countP (fun r2 => decide (key_tuple keys r2 = key_tuple keys r))))

/-- One consolidated validation finding (lines 231-294). -/
structure Issue where
  template_name : String
  row_index : Nat
  temp_id : Value
  column_name : String
  issue : String
deriving DecidableEq

/-- Findings of the Temp ID blank check (lines 283-294): one finding per
row whose Temp ID is NaN or strips to the empty string. -/
def temp_id_blank_issues (template_name : String) (rows : List Row) : List Issue :=
  if "Temp ID" ∈ (rows.map (fun r => r.map Prod.fst)).flatten then
    (rows.enum.filter (fun p => temp_id_blank (cellOf p.2 "Temp ID"))).map
      (fun p => { template_name := template_name, row_index := p.1,
                  temp_id := cellOf p.2 "Temp ID", column_name := "Temp ID",
                  issue := "Temp ID is blank" })
  else []

/-- First-occurrence deduplication with the already-seen set threaded
through. -/
def uniq_first_aux {α : Type} [DecidableEq α] (seen : List α) : List α → List α
  | [] => []
  | a :: as =>
      if a ∈ seen then uniq_first_aux seen as
      else a :: uniq_first_aux (a :: seen) as

/-- First-occurrence deduplication of a list, as pandas Series.unique. -/
def uniq_first {α : Type} [DecidableEq α] (l : List α) : List α :=
  uniq_first_aux [] l

/-- Join a list of strings with a separator, as str.join. -/
def joinSep (sep : String) : List String → String
  | [] => ""
  | [s] => s
  | s :: rest => s ++ sep ++ joinSep sep rest

/-- Columns of the issue report: the distinct Column Name values of the
consolidated findings, first occurrence order (line 312). -/
def issue_columns (issues : List Issue) : List String :=
  uniq_first (issues.map (fun x => x.column_name))

/-- Per-row per-column finding string (lines 313-316): the distinct
finding messages of that row and column, joined. -/
def col_string (issues : List Issue) (i : Nat) (c : String) : String :=
  joinSep "; "
    (uniq_first ((issues.filter
      (fun x => x.row_index == i && x.column_name == c)).map (fun x => x.issue)))

/-- Per-row summary string (line 318): the non-empty per-column strings
of that row, joined. -/
def row_summary (issues : List Issue) (i : Nat) : String :=
  joinSep "; " (((issue_columns issues).map (col_string issues i)).filter (fun s => s ≠ ""))

/-- Row retention test of the summary sheet (line 319): some per-column
string or the summary string of the row is a non-empty string. -/
def issue_row_flag (issues : List Issue) (i : Nat) : Bool :=
  ((issue_columns issues).map (col_string issues i)).any (fun s => s != "") ||
    (row_summary issues i != "")

/-- Final persisted report (lines 319-321): the data rows whose retention
test holds, then filtered by Temp ID notna -- a null-only filter that
does not strip whitespace. -/
def final_report (rows : List Row) (issues : List Issue) : List (Nat × Row) :=
  (rows.enum.filter (fun p => issue_row_flag issues p.1)).filter
    (fun p => !(cellOf p.2 "Temp ID").isna)

-- Mapping validator (location_mapping_validate_fixed, lines 606-636).

/-- Lower-cased str() form of a cell, as astype(str).str.lower(). -/
def lower_str (v : Value) : String :=
  pyLower (pyStr v)

/-- Count summary of the account/location mapping validator. -/
structure LocationSummary where
  status : Bool
  message : String
  source_records : Nat
  bill_to_valid_count : Nat
  bill_to_not_valid_count : Nat
  ship_to_valid_count : Nat
  ship_to_not_valid_count : Nat
deriving DecidableEq

/-- Membership test of the valid buckets (lines 625 and 627). -/
def check_valid (v : Value) : Bool :=
  lower_str v ∈ ["yes", "primary"]

/-- Test of the not-valid buckets (lines 626 and 628): exactly the
lower-cased value no. -/
def check_not_valid (v : Value) : Bool :=
  lower_str v == "no"

/-- Translation of location_mapping_validate_fixed.  A missing check
column raises a KeyError that the surrounding try/except converts into a
status-false summary with zero counts; otherwise the four counts are
taken over the source rows. -/
def location_mapping_validate_fixed (src : DataFrame) : LocationSummary :=
  if "Bill_to_check" ∈ src.cols ∧ "Ship_to_check" ∈ src.cols then
    { status := true, message := "Validation completed."
      source_records := src.rows.length
      bill_to_valid_count := src.rows.countP (fun r => check_valid (cellOf r "Bill_to_check"))
      bill_to_not_valid_count := src.rows.countP (fun r => check_not_valid (cellOf r "Bill_to_check"))
      ship_to_valid_count := src.rows.countP (fun r => check_valid (cellOf r "Ship_to_check"))
      ship_to_not_valid_count := src.rows.countP (fun r => check_not_valid (cellOf r "Ship_to_check")) }
  else
    { status := false, message := "Validation error: KeyError"
      source_records := 0
      bill_to_valid_count := 0, bill_to_not_valid_count := 0
      ship_to_valid_count := 0, ship_to_not_valid_count := 0 }

-- Helper lemmas.

theorem fill_blanks_length (n : Int) (col : List Value) :
    (fill_blanks n col).length = col.length := by
  induction col generalizing n with
  | nil => rfl
  | cons v vs ih =>
      cases hb : temp_id_blank v <;> simp [fill_blanks, hb, ih]

theorem fill_blanks_getD_of_not_blank (n : Int) (col : List Value) (i : Nat)
    (hi : i < col.length) (hb : temp_id_blank (col.getD i .na) = false) :
    (fill_blanks n col).getD i .na = col.getD i .na := by
  induction col generalizing n i with
  | nil => simp at hi
  | cons v vs ih =>
      cases i with
      | zero =>
          simp only [List.getD_cons_zero] at hb
          simp [fill_blanks, hb]
      | succ i =>
          simp only [List.getD_cons_succ] at hb ⊢
          cases hv : temp_id_blank v <;>
            simp only [fill_blanks, hv, if_true, if_false, List.getD_cons_succ] <;>
            exact ih _ _ (by simpa using hi) hb

theorem blank_position_values_fill (n : Int) (col : List Value) :
    blank_position_values col (fill_blanks n col)
      = (List.range (col.countP temp_id_blank)).map (fun (k : Nat) => Value.int (n + (k : Int))) := by
  induction col generalizing n with
  | nil => rfl
  | cons v vs ih =>
      cases hb : temp_id_blank v with
      | false =>
          simp only [fill_blanks, hb, if_false, Bool.false_eq_true,
            blank_position_values, List.zip_cons_cons, List.filter_cons, List.countP_cons]
          simpa [blank_position_values, hb] using ih n
      | true =>
          have ihv := ih (n + 1)
          simp only [blank_position_values] at ihv ⊢
          simp only [fill_blanks, hb, if_true, List.zip_cons_cons, List.filter_cons,
            List.map_cons, List.countP_cons]
          rw [ihv, List.range_succ_eq_map, List.map_cons, List.map_map]
          congr 1
          · simp
          · refine List.map_congr_left (fun a _ => ?_)
            simp only [Function.comp_apply]
            congr 1
            push_cast
            omega

theorem countP_blank_of_not_any {l : List Value} (h : l.any temp_id_blank = false) :
    l.countP temp_id_blank = 0 := by
  rw [List.countP_eq_zero]
  intro a ha
  have := List.any_eq_false.mp h a ha
  simp [this]

theorem blank_position_values_self {l : List Value} (h : l.any temp_id_blank = false) :
    blank_position_values l l = [] := by
  unfold blank_position_values
  have hf : (l.zip l).filter (fun p => temp_id_blank p.1) = [] := by
    rw [List.filter_eq_nil_iff]
    intro p hp
    obtain ⟨a, b⟩ := p
    have hm := (List.of_mem_zip hp).1
    have := List.any_eq_false.mp h a hm
    simp [this]
  simp [hf]

theorem temp_id_range_getD (col : List Value) (i : Nat) (hi : i < col.length) :
    (temp_id_logic false col).getD i .na = Value.int (5001 + (i : Int)) := by
  unfold temp_id_logic
  simp only [Bool.false_eq_true, if_false]
  rw [List.getD_eq_getElem _ _ (by simpa using hi)]
  simp

/-- Claim C1: the Temp ID block shared by every synthesis variant whose
output schema has a Temp ID column (all five variants repeat the same
block verbatim, embedded once as temp_id_logic).  When the source record
set has no Temp ID column, the output identifiers are exactly the
sequential range 5001, 5002, ... whose length is the output row count,
in row order.  When the source has a Temp ID column, every non-blank
identifier is preserved unchanged, and the blank (NaN or
whitespace-only) positions receive exactly the values 5001, 5002, ... in
their original relative order; nothing is deduplicated against existing
identifier values. -/
theorem temp_id_backfill_correct (col : List Value) :
    ((temp_id_logic false col).length = col.length ∧
      (∀ i : Nat, i < col.length →
        (temp_id_logic false col).getD i .na = Value.int (5001 + (i : Int)))) ∧
    ((temp_id_logic true col).length = col.length ∧
      (∀ i : Nat, i < col.length → temp_id_blank (col.getD i .na) = false →
        (temp_id_logic true col).getD i .na = col.getD i .na) ∧
      blank_position_values col (temp_id_logic true col)
        = (List.range (col.countP temp_id_blank)).map
            (fun (k : Nat) => Value.int (5001 + (k : Int)))) := by
  refine ⟨⟨?_, ?_⟩, ?_, ?_, ?_⟩
  · simp [temp_id_logic]
  · intro i hi
    exact temp_id_range_getD col i hi
  · unfold temp_id_logic
    cases h : col.any temp_id_blank <;> simp [fill_blanks_length]
  · intro i hi hb
    unfold temp_id_logic
    cases h : col.any temp_id_blank with
    | false => simp
    | true => simpa using fill_blanks_getD_of_not_blank 5001 col i hi hb
  · unfold temp_id_logic
    cases h : col.any temp_id_blank with
    | false =>
        simp [blank_position_values_self h, countP_blank_of_not_any h]
    | true => simpa using blank_position_values_fill 5001 col

/-- Witness for claim C1 at a concrete column: the non-blank position 3
is preserved, the whole filled column shows the blanks receiving 5001
and 5002 although 5001 already occurs as an existing identifier, and a
source batch with no Temp ID column becomes the exact range. -/
theorem temp_id_backfill_correct_witness :
    (temp_id_logic true [Value.int 5001, Value.na, Value.str " ", Value.str "X"]).getD 3 .na
        = Value.str "X" ∧
    temp_id_logic true [Value.int 5001, Value.na, Value.str " ", Value.str "X"]
        = [Value.int 5001, Value.int 5001, Value.int 5002, Value.str "X"] ∧
    temp_id_logic false [Value.str "X", Value.na]
        = [Value.int 5001, Value.int 5002] :=
  ⟨(temp_id_backfill_correct [Value.int 5001, Value.na, Value.str " ", Value.str "X"]).2.2.1 3
      (by decide) (by decide), by decide, by decide⟩

/-- Counterexample to claim C9: a whitespace-only string is blank (in
the sense of is_blank, null or whitespace-only), yet the guarded
comparison of the source-vs-default and fixed-value checks does compare
it -- the guard is pd.notnull only -- and flags it as a mismatch against
the expected default TRUE.  So blank values are not "never compared". -/
theorem normalize_blank_compared_cex :
    is_blank (Value.str " ") = true ∧
    source_default_mismatch (Value.str " ") (Value.str "TRUE") = true := by
  decide

/-- Claim C9 (amended): the values "true", "TRUE", " True " and boolean
true all normalize to the string TRUE and are judged equal to the
expected default "TRUE"; booleans normalize to their uppercase str()
form and every other non-missing value to its whitespace-trimmed
uppercased str() form, compared for exact equality; missing (NaN)
values are never compared, but whitespace-only strings are compared and
normalize to the empty string. -/
theorem normalize_value_correct :
    (normalize_value (Value.str "true") = Value.str "TRUE" ∧
     normalize_value (Value.str "TRUE") = Value.str "TRUE" ∧
     normalize_value (Value.str " True ") = Value.str "TRUE" ∧
     normalize_value (Value.bool true) = Value.str "TRUE") ∧
    (source_default_mismatch (Value.str "true") (Value.str "TRUE") = false ∧
     source_default_mismatch (Value.str "TRUE") (Value.str "TRUE") = false ∧
     source_default_mismatch (Value.str " True ") (Value.str "TRUE") = false ∧
     source_default_mismatch (Value.bool true) (Value.str "TRUE") = false) ∧
    (∀ b : Bool, normalize_value (Value.bool b) = Value.str (pyUpper (pyStr (Value.bool b)))) ∧
    (∀ s : String, normalize_value (Value.str s) = Value.str (pyUpper (pyTrim s))) ∧
    (∀ n : Int, normalize_value (Value.int n) = Value.str (pyUpper (pyTrim (toString n)))) ∧
    (∀ expected : Value, source_default_mismatch Value.na expected = false) ∧
    normalize_value (Value.str " ") = Value.str "" :=
  ⟨by decide, by decide, fun _ => rfl, fun _ => rfl, fun _ => rfl, fun _ => rfl, by decide⟩

theorem check_valid_not_valid_disjoint (v : Value) :
    (check_valid v && check_not_valid v) = false := by
  by_cases h : lower_str v = "no"
  · simp [check_valid, check_not_valid, h]
  · simp [check_not_valid, h]

theorem countP_disjoint_add {α : Type} (p q : α → Bool) (l : List α)
    (h : ∀ a : α, (p a && q a) = false) :
    l.countP p + l.countP q = l.countP (fun a => p a || q a) := by
  induction l with
  | nil => rfl
  | cons a as ih =>
      have ha := h a
      simp only [List.countP_cons]
      cases hp : p a <;> cases hq : q a <;> simp [hp, hq] at ha ⊢ <;> omega

/-- Claim C10: in the read-only account/location mapping validator, the
valid counts tally the rows whose check column lower-cases into the set
containing yes and primary, while the not-valid counts tally only the
rows lower-casing to exactly no; consequently the two buckets are
disjoint, their sum counts only yes/primary/no rows, and it is at most
-- not necessarily equal to -- source_records. -/
theorem location_counts_correct (src : DataFrame)
    (h : "Bill_to_check" ∈ src.cols ∧ "Ship_to_check" ∈ src.cols) :
    (location_mapping_validate_fixed src).source_records = src.rows.length ∧
    ((location_mapping_validate_fixed src).bill_to_valid_count
      = src.rows.countP (fun r => check_valid (cellOf r "Bill_to_check"))) ∧
    ((location_mapping_validate_fixed src).bill_to_not_valid_count
      = src.rows.countP (fun r => check_not_valid (cellOf r "Bill_to_check"))) ∧
    ((location_mapping_validate_fixed src).ship_to_valid_count
      = src.rows.countP (fun r => check_valid (cellOf r "Ship_to_check"))) ∧
    ((location_mapping_validate_fixed src).ship_to_not_valid_count
      = src.rows.countP (fun r => check_not_valid (cellOf r "Ship_to_check"))) ∧
    ((location_mapping_validate_fixed src).bill_to_valid_count
        + (location_mapping_validate_fixed src).bill_to_not_valid_count
      = src.rows.countP (fun r => check_valid (cellOf r "Bill_to_check")
          || check_not_valid (cellOf r "Bill_to_check"))) ∧
    ((location_mapping_validate_fixed src).bill_to_valid_count
        + (location_mapping_validate_fixed src).bill_to_not_valid_count
      ≤ (location_mapping_validate_fixed src).source_records) ∧
    ((location_mapping_validate_fixed src).ship_to_valid_count
        + (location_mapping_validate_fixed src).ship_to_not_valid_count
      ≤ (location_mapping_validate_fixed src).source_records) := by
  unfold location_mapping_validate_fixed
  rw [if_pos h]
  refine ⟨rfl, rfl, rfl, rfl, rfl, ?_, ?_, ?_⟩
  · exact countP_disjoint_add _ _ _ (fun r => check_valid_not_valid_disjoint _)
  · rw [countP_disjoint_add _ _ _ (fun r => check_valid_not_valid_disjoint
      (cellOf r "Bill_to_check"))]
    exact List.countP_le_length _
  · rw [countP_disjoint_add _ _ _ (fun r => check_valid_not_valid_disjoint
      (cellOf r "Ship_to_check"))]
    exact List.countP_le_length _

/-- Witness for claim C10 on a concrete source frame whose single row
holds maybe: both buckets are empty, so valid plus not-valid differs
from source_records. -/
theorem location_counts_correct_witness :
    (location_mapping_validate_fixed
      ⟨["Bill_to_check", "Ship_to_check"],
       [[("Bill_to_check", Value.str "maybe"), ("Ship_to_check", Value.str "MAYBE")]]⟩).source_records = 1 ∧
    (location_mapping_validate_fixed
      ⟨["Bill_to_check", "Ship_to_check"],
       [[("Bill_to_check", Value.str "maybe"), ("Ship_to_check", Value.str "MAYBE")]]⟩).bill_to_valid_count
      + (location_mapping_validate_fixed
      ⟨["Bill_to_check", "Ship_to_check"],
       [[("Bill_to_check", Value.str "maybe"), ("Ship_to_check", Value.str "MAYBE")]]⟩).bill_to_not_valid_count
      = 0 :=
  ⟨(location_counts_correct
      ⟨["Bill_to_check", "Ship_to_check"],
       [[("Bill_to_check", Value.str "maybe"), ("Ship_to_check", Value.str "MAYBE")]]⟩
      (by decide)).1, by decide⟩

-- Lemmas on first-occurrence deduplication.

theorem drop_duplicates_first_sublist (key : Row → Value) (seen : List Value)
    (rows : List Row) : (drop_duplicates_first key seen rows).Sublist rows := by
  induction rows generalizing seen with
  | nil => exact List.Sublist.refl _
  | cons r rs ih =>
      unfold drop_duplicates_first
      by_cases h : key r ∈ seen
      · rw [if_pos h]
        exact List.Sublist.cons r (ih seen)
      · rw [if_neg h]
        exact List.Sublist.cons₂ r (ih _)

theorem drop_duplicates_first_key_not_seen (key : Row → Value) (seen : List Value)
    (rows : List Row) (u : Row) (hu : u ∈ drop_duplicates_first key seen rows) :
    key u ∉ seen := by
  induction rows generalizing seen with
  | nil => simp [drop_duplicates_first] at hu
  | cons r rs ih =>
      unfold drop_duplicates_first at hu
      by_cases h : key r ∈ seen
      · rw [if_pos h] at hu
        exact ih seen hu
      · rw [if_neg h] at hu
        rcases List.mem_cons.mp hu with h1 | h2
        · rw [h1]
          exact h
        · intro hk
          exact ih _ h2 (List.mem_cons_of_mem _ hk)

theorem drop_duplicates_first_keys_nodup (key : Row → Value) (seen : List Value)
    (rows : List Row) : ((drop_duplicates_first key seen rows).map key).Nodup := by
  induction rows generalizing seen with
  | nil => simp [drop_duplicates_first]
  | cons r rs ih =>
      unfold drop_duplicates_first
      by_cases h : key r ∈ seen
      · rw [if_pos h]
        exact ih seen
      · rw [if_neg h]
        simp only [List.map_cons, List.nodup_cons]
        refine ⟨?_, ih _⟩
        intro hmem
        obtain ⟨u, hu, hku⟩ := List.mem_map.mp hmem
        have hns := drop_duplicates_first_key_not_seen key _ rs u hu
        exact hns (by rw [hku]; exact List.mem_cons_self _ _)

theorem drop_duplicates_first_find (key : Row → Value) (seen : List Value)
    (rows : List Row) (u : Row) (hu : u ∈ drop_duplicates_first key seen rows) :
    rows.find? (fun r2 => key r2 == key u) = some u := by
  induction rows generalizing seen with
  | nil => simp [drop_duplicates_first] at hu
  | cons r rs ih =>
      unfold drop_duplicates_first at hu
      by_cases h : key r ∈ seen
      · rw [if_pos h] at hu
        have hne : key u ≠ key r := by
          intro he
          exact drop_duplicates_first_key_not_seen key seen rs u hu (he ▸ h)
        rw [List.find?_cons_of_neg _ (by simp [Ne.symm hne])]
        exact ih seen hu
      · rw [if_neg h] at hu
        rcases List.mem_cons.mp hu with h1 | h2
        · rw [h1]
          rw [List.find?_cons_of_pos _ (by simp)]
        · have hns := drop_duplicates_first_key_not_seen key _ rs u h2
          have hne : key u ≠ key r := fun he => hns (by rw [he]; exact List.mem_cons_self _ _)
          rw [List.find?_cons_of_neg _ (by simp [Ne.symm hne])]
          exact ih _ h2

theorem drop_duplicates_first_covers (key : Row → Value) (seen : List Value)
    (rows : List Row) (r : Row) (hr : r ∈ rows) (hs : key r ∉ seen) :
    ∃ u ∈ drop_duplicates_first key seen rows, key u = key r := by
  induction rows generalizing seen with
  | nil => simp at hr
  | cons r0 rs ih =>
      unfold drop_duplicates_first
      by_cases h : key r0 ∈ seen
      · rw [if_pos h]
        rcases List.mem_cons.mp hr with h1 | h2
        · exact absurd (by rw [← h1] at h; exact h) hs
        · exact ih seen h2 hs
      · rw [if_neg h]
        by_cases hk : key r = key r0
        · exact ⟨r0, List.mem_cons_self _ _, hk.symm⟩
        · rcases List.mem_cons.mp hr with h1 | h2
          · exact absurd (by rw [h1]) hk
          · obtain ⟨u, hu, hku⟩ := ih (key r0 :: seen) h2 (by
              intro hmem
              rcases List.mem_cons.mp hmem with h3 | h4
              · exact hk h3
              · exact hs h4)
            exact ⟨u, List.mem_cons_of_mem _ hu, hku⟩

/-- Claim C2: the deduplicating-by-name (Service Plan) variant keeps
exactly one record per distinct Name value: the output of the
drop_duplicates step is a sublist of the source batch (records in
original relative order), its Name keys hold no duplicate, every source
record has a representative of its Name in the output, and every output
record is the first source record carrying its Name. -/
theorem service_plan_dedup_correct (rows : List Row) :
    (service_plan_unique rows).Sublist rows ∧
    ((service_plan_unique rows).map nameKey).Nodup ∧
    (∀ r ∈ rows, ∃ u ∈ service_plan_unique rows, nameKey u = nameKey r) ∧
    (∀ u ∈ service_plan_unique rows,
      rows.find? (fun r2 => nameKey r2 == nameKey u) = some u) := by
  refine ⟨drop_duplicates_first_sublist _ _ _,
    drop_duplicates_first_keys_nodup _ _ _, ?_, ?_⟩
  · intro r hr
    exact drop_duplicates_first_covers _ _ _ r hr (by simp)
  · intro u hu
    exact drop_duplicates_first_find _ _ _ u hu

/-- Witness for claim C2: the batch with Name values A, A, B dedupes to
the first A row then the B row, and the theorem yields a representative
of the repeated Name A. -/
theorem service_plan_dedup_correct_witness :
    service_plan_unique
        [[("Name", Value.str "A")], [("Name", Value.str "A")], [("Name", Value.str "B")]]
      = [[("Name", Value.str "A")], [("Name", Value.str "B")]] ∧
    (∃ u ∈ service_plan_unique
        [[("Name", Value.str "A")], [("Name", Value.str "A")], [("Name", Value.str "B")]],
      nameKey u = nameKey [("Name", Value.str "A")]) :=
  ⟨by decide,
    (service_plan_dedup_correct
      [[("Name", Value.str "A")], [("Name", Value.str "A")], [("Name", Value.str "B")]]).2.2.1
      [("Name", Value.str "A")] (by decide)⟩

theorem lookup_map_headers (f : String → Value) (headers : List String) (c : String)
    (hc : c ∈ headers) :
    (headers.map (fun c2 => (c2, f c2))).lookup c = some (f c) := by
  induction headers with
  | nil => simp at hc
  | cons h0 hs ih =>
      by_cases he : c = h0
      · subst he
        simp [List.lookup]
      · have hb : (c == h0) = false := beq_eq_false_iff_ne.mpr he
        rcases List.mem_cons.mp hc with h1 | h2
        · exact absurd h1 he
        · simp only [List.map_cons, List.lookup, hb]
          exact ih h2

/-- Claim C3: in the Service Plan variant, a record whose Name contains
the case-insensitive substring warranty receives the five override
fields on top of the configured defaults, and every per-record default
beats a same-named source column (the synthesized cell never consults
the source row for a defaulted column, whatever srcCols holds); the
record named Extended Warranty Plan gets HCS_Related_To__c Warranty,
while the record named Standard Plan is not warranty-detected and keeps
the non-warranty defaults, for example SVMXC__Active__c TRUE and
HCS_Related_To__c Service Contract. -/
theorem service_plan_warranty_correct (headers srcCols : List String) (r : Row)
    (hw : warranty_name r = true) :
    (∀ cv ∈ warranty_overrides, cv.1 ∈ headers →
      (service_plan_row headers srcCols r).lookup cv.1 = some (Value.str cv.2)) ∧
    (∀ (c : String) (v : String), row_defaults true c = some v → c ∈ headers →
      (service_plan_row headers srcCols r).lookup c = some (Value.str v)) ∧
    warranty_name [("Name", Value.str "Extended Warranty Plan")] = true ∧
    warranty_name [("Name", Value.str "Standard Plan")] = false ∧
    ("HCS_Related_To__c" ∈ headers →
      (service_plan_row headers srcCols
          [("Name", Value.str "Extended Warranty Plan")]).lookup "HCS_Related_To__c"
        = some (Value.str "Warranty")) ∧
    ("SVMXC__Active__c" ∈ headers →
      (service_plan_row headers srcCols
          [("Name", Value.str "Standard Plan")]).lookup "SVMXC__Active__c"
        = some (Value.str "TRUE")) ∧
    ("HCS_Related_To__c" ∈ headers →
      (service_plan_row headers srcCols
          [("Name", Value.str "Standard Plan")]).lookup "HCS_Related_To__c"
        = some (Value.str "Service Contract")) := by
  have hcell : ∀ (r2 : Row) (c v : String), row_defaults (warranty_name r2) c = some v →
      service_plan_cell srcCols r2 c = Value.str v := by
    intro r2 c v hd
    unfold service_plan_cell
    rw [hd]
  refine ⟨?_, ?_, by decide, by decide, ?_, ?_, ?_⟩
  · intro cv hcv hch
    rw [service_plan_row, lookup_map_headers _ _ _ hch]
    have hd : row_defaults true cv.1 = some cv.2 := by
      fin_cases hcv <;> decide
    rw [hcell r cv.1 cv.2 (by rw [hw]; exact hd)]
  · intro c v hd hch
    rw [service_plan_row, lookup_map_headers _ _ _ hch]
    rw [hcell r c v (by rw [hw]; exact hd)]
  · intro hch
    rw [service_plan_row, lookup_map_headers _ _ _ hch,
      hcell _ "HCS_Related_To__c" "Warranty" (by decide)]
  · intro hch
    rw [service_plan_row, lookup_map_headers _ _ _ hch,
      hcell _ "SVMXC__Active__c" "TRUE" (by decide)]
  · intro hch
    rw [service_plan_row, lookup_map_headers _ _ _ hch,
      hcell _ "HCS_Related_To__c" "Service Contract" (by decide)]

/-- Witness for claim C3 on a concrete schema: the Extended Warranty
Plan record gets the Warranty relation override, and the Standard Plan
record keeps the plain defaults. -/
theorem service_plan_warranty_correct_witness :
    (service_plan_row ["HCS_Related_To__c", "SVMXC__Active__c", "Name"] ["Name"]
        [("Name", Value.str "Extended Warranty Plan")]).lookup "HCS_Related_To__c"
      = some (Value.str "Warranty") ∧
    (service_plan_row ["HCS_Related_To__c", "SVMXC__Active__c", "Name"] ["Name"]
        [("Name", Value.str "Standard Plan")]).lookup "SVMXC__Active__c"
      = some (Value.str "TRUE") ∧
    (service_plan_row ["HCS_Related_To__c", "SVMXC__Active__c", "Name"] ["Name"]
        [("Name", Value.str "Standard Plan")]).lookup "HCS_Related_To__c"
      = some (Value.str "Service Contract") :=
  ⟨(service_plan_warranty_correct ["HCS_Related_To__c", "SVMXC__Active__c", "Name"] ["Name"]
      [("Name", Value.str "Extended Warranty Plan")] (by decide)).2.2.2.2.1 (by decide),
   by decide, by decide⟩

theorem countP_two_iff_exists {α : Type} (p : α → Bool) (l : List α) (i : Nat)
    (hi : i < l.length) (hpi : p l[i] = true) :
    2 ≤ l.countP p ↔ ∃ j, ∃ hj : j < l.length, j ≠ i ∧ p l[j] = true := by
  have hdecomp : l = l.take i ++ l[i] :: l.drop (i + 1) := by
    rw [List.getElem_cons_drop]
    exact (List.take_append_drop i l).symm
  have hcount : l.countP p = (l.take i).countP p + ((l.drop (i + 1)).countP p + 1) := by
    conv_lhs => rw [hdecomp]
    rw [List.countP_append, List.countP_cons, hpi]
    simp
  constructor
  · intro h2
    have hab : 0 < (l.take i).countP p ∨ 0 < (l.drop (i + 1)).countP p := by omega
    rcases hab with ha | hb
    · obtain ⟨a, ham, hap⟩ := List.countP_pos_iff.mp ha
      obtain ⟨n, hn, hna⟩ := List.mem_iff_getElem.mp ham
      have hni : n < i := by
        have := hn
        simp [List.length_take] at this
        omega
      have hnl : n < l.length := by omega
      refine ⟨n, hnl, by omega, ?_⟩
      have : l[n] = a := by
        rw [← hna]
        exact (List.getElem_take l).symm
      rw [this]
      exact hap
    · obtain ⟨a, ham, hap⟩ := List.countP_pos_iff.mp hb
      obtain ⟨n, hn, hna⟩ := List.mem_iff_getElem.mp ham
      have hnd : n < l.length - (i + 1) := by
        have := hn
        simp [List.length_drop] at this
        omega
      refine ⟨i + 1 + n, by omega, by omega, ?_⟩
      have : l[i + 1 + n] = a := by
        rw [← hna]
        exact (List.getElem_drop l).symm
      rw [this]
      exact hap
  · rintro ⟨j, hj, hne, hpj⟩
    rcases Nat.lt_or_ge j i with hji | hij
    · have hA : 0 < (l.take i).countP p := by
        rw [List.countP_pos_iff]
        refine ⟨l[j], ?_, hpj⟩
        have hjt : j < (l.take i).length := by
          simp [List.length_take]
          omega
        have : (l.take i)[j] = l[j] := List.getElem_take l
        rw [← this]
        exact List.getElem_mem hjt
      omega
    · have hji2 : i < j := by omega
      have hB : 0 < (l.drop (i + 1)).countP p := by
        rw [List.countP_pos_iff]
        refine ⟨l[j], ?_, hpj⟩
        have hjd : j - (i + 1) < (l.drop (i + 1)).length := by
          simp [List.length_drop]
          omega
        have : (l.drop (i + 1))[j - (i + 1)] = l[i + 1 + (j - (i + 1))] := List.getElem_drop l
        have h2 : l[i + 1 + (j - (i + 1))] = l[j] := by
          congr 1
          omega
        rw [← h2, ← this]
        exact List.getElem_mem hjd
      omega

/-- Claim C4: in the duplicate check of the validation engine, with the
key columns taken over the unique-designated columns present in the
data, a row is flagged exactly when some other row of the frame carries
an equal key tuple -- so all members of a duplicate group are flagged,
the first occurrence included, and rows with a unique key tuple are not
flagged; and a column is a key column exactly when it is designated
unique and present with some non-missing value in the data. -/
theorem duplicate_check_correct (uniqueRules : List String) (df : DataFrame)
    (i : Nat) (hi : i < df.rows.length) :
    ((dup_flags (key_columns uniqueRules df) df.rows).getD i false = true ↔
      ∃ j, ∃ hj : j < df.rows.length, j ≠ i ∧
        key_tuple (key_columns uniqueRules df) df.rows[j]
          = key_tuple (key_columns uniqueRules df) df.rows[i]) ∧
    (∀ c : String, c ∈ key_columns uniqueRules df ↔
      (c ∈ uniqueRules ∧ c ∈ df.cols ∧ ∃ r ∈ df.rows, (cellOf r c).isna = false)) := by
  constructor
  · have hget : (dup_flags (key_columns uniqueRules df) df.rows).getD i false
        = decide (2 ≤ df.rows.countP (fun r2 =>
            decide (key_tuple (key_columns uniqueRules df) r2
              = key_tuple (key_columns uniqueRules df) df.rows[i]))) := by
      unfold dup_flags
      rw [List.getD_eq_getElem _ _ (by simpa using hi), List.getElem_map]
    rw [hget, decide_eq_true_iff]
    rw [countP_two_iff_exists _ df.rows i hi (by simp)]
    constructor
    · rintro ⟨j, hj, hne, hpj⟩
      exact ⟨j, hj, hne, of_decide_eq_true hpj⟩
    · rintro ⟨j, hj, hne, hpj⟩
      exact ⟨j, hj, hne, decide_eq_true hpj⟩
  · intro c
    simp [key_columns, relevant_columns, List.mem_filter, List.any_eq_true]

/-- Witness for claim C4 on the concrete batch with Temp ID values A, A,
B over the unique rule Temp ID: the first A row is flagged (through the
second A row at position 1) and the B row is not. -/
theorem duplicate_check_correct_witness :
    (dup_flags
      (key_columns ["Temp ID"]
        ⟨["Temp ID"], [[("Temp ID", Value.str "A")], [("Temp ID", Value.str "A")],
          [("Temp ID", Value.str "B")]]⟩)
      [[("Temp ID", Value.str "A")], [("Temp ID", Value.str "A")],
        [("Temp ID", Value.str "B")]]).getD 0 false = true ∧
    (dup_flags
      (key_columns ["Temp ID"]
        ⟨["Temp ID"], [[("Temp ID", Value.str "A")], [("Temp ID", Value.str "A")],
          [("Temp ID", Value.str "B")]]⟩)
      [[("Temp ID", Value.str "A")], [("Temp ID", Value.str "A")],
        [("Temp ID", Value.str "B")]]).getD 2 false = false :=
  ⟨((duplicate_check_correct ["Temp ID"]
      ⟨["Temp ID"], [[("Temp ID", Value.str "A")], [("Temp ID", Value.str "A")],
        [("Temp ID", Value.str "B")]]⟩ 0 (by decide)).1).mpr
      ⟨1, by decide, by decide, by decide⟩,
   by decide⟩

/-- Claim C5: the row-filtering variants retain exactly the source
records whose flag column case-insensitively equals yes, and with zero
qualifying records they return the failed/no-op result -- for every
state of the template read, including a failing one, since the empty
branch returns before the template is read or written, so no empty
artifact is produced and no exception arises from this outcome. -/
theorem pricing_filter_noop_correct (hdrs : Except String (List String)) (src : DataFrame) :
    (∀ r : Row, r ∈ parts_filtered src ↔
      (r ∈ src.rows ∧ need_yes (cellOf r "Need parts pricing") = true)) ∧
    (∀ r : Row, r ∈ labor_filtered src ↔
      (r ∈ src.rows ∧ need_yes (cellOf r "Need labor pricing") = true)) ∧
    ("Need parts pricing" ∈ src.cols → parts_filtered src = [] →
      update_parts_pricing hdrs src = .ok false) ∧
    ("Need labor pricing" ∈ src.cols → labor_filtered src = [] →
      update_labor_pricing hdrs src = .ok none) := by
  refine ⟨?_, ?_, ?_, ?_⟩
  · intro r
    simp [parts_filtered, List.mem_filter]
  · intro r
    simp [labor_filtered, List.mem_filter]
  · intro hcol hemp
    unfold update_parts_pricing
    rw [if_pos hcol, hemp]
    rfl
  · intro hcol hemp
    unfold update_labor_pricing
    rw [if_pos hcol]
    simp only [hemp, List.isEmpty_nil, if_true]

/-- Witness for claim C5: one-row batches whose flag is no produce the
failed/no-op result even though the template read would have failed. -/
theorem pricing_filter_noop_correct_witness :
    update_parts_pricing (.error "File not found")
      ⟨["Need parts pricing"], [[("Need parts pricing", Value.str "no")]]⟩ = .ok false ∧
    update_labor_pricing (.error "File not found")
      ⟨["Need labor pricing"], [[("Need labor pricing", Value.str "NO")]]⟩ = .ok none :=
  ⟨(pricing_filter_noop_correct (.error "File not found")
      ⟨["Need parts pricing"], [[("Need parts pricing", Value.str "no")]]⟩).2.2.1
      (by decide) (by decide),
   (pricing_filter_noop_correct (.error "File not found")
      ⟨["Need labor pricing"], [[("Need labor pricing", Value.str "NO")]]⟩).2.2.2
      (by decide) (by decide)⟩

-- Lemmas on the Labor Pricing expansion.

theorem labor_expand_length (headers srcCols : List String) (cm dv : List (String × String))
    (rows : List Row) :
    (labor_expand headers srcCols cm dv rows).length = 2 * rows.length := by
  induction rows with
  | nil => rfl
  | cons r rs ih =>
      simp only [labor_expand, List.length_cons, ih]
      omega

theorem labor_expand_getD_even (headers srcCols : List String) (cm dv : List (String × String))
    (rows : List Row) (i : Nat) (hi : i < rows.length) :
    (labor_expand headers srcCols cm dv rows).getD (2 * i) []
      = labor_row headers srcCols cm dv rows[i] "Labor" := by
  induction rows generalizing i with
  | nil => simp at hi
  | cons r rs ih =>
      cases i with
      | zero => simp [labor_expand]
      | succ i =>
          have h2 : 2 * (i + 1) = 2 * i + 1 + 1 := by omega
          rw [h2]
          simp only [labor_expand, List.getD_cons_succ, List.getElem_cons_succ]
          exact ih i (by simpa using hi)

theorem labor_expand_getD_odd (headers srcCols : List String) (cm dv : List (String × String))
    (rows : List Row) (i : Nat) (hi : i < rows.length) :
    (labor_expand headers srcCols cm dv rows).getD (2 * i + 1) []
      = labor_row headers srcCols cm dv rows[i] "Travel" := by
  induction rows generalizing i with
  | nil => simp at hi
  | cons r rs ih =>
      cases i with
      | zero => simp [labor_expand]
      | succ i =>
          have h2 : 2 * (i + 1) + 1 = 2 * i + 1 + 1 + 1 := by omega
          rw [h2]
          simp only [labor_expand, List.getD_cons_succ, List.getElem_cons_succ]
          exact ih i (by simpa using hi)

/-- Claim C6: the Labor Pricing expansion loop turns a filtered batch of
N qualifying rows into exactly 2N output rows; the two consecutive
output rows of source row i carry the literal Labor then Travel in the
Labor_Type__c column, in source order, and agree on every other column,
whose value follows the variant precedence: a direct source column
first, then a mapped source column, then a configured default. -/
theorem labor_expand_correct (headers srcCols : List String) (cm dv : List (String × String))
    (rows : List Row) :
    (labor_expand headers srcCols cm dv rows).length = 2 * rows.length ∧
    (∀ i : Nat, (hi : i < rows.length) →
      ("Labor_Type__c" ∈ headers →
        ((labor_expand headers srcCols cm dv rows).getD (2 * i) []).lookup "Labor_Type__c"
          = some (Value.str "Labor") ∧
        ((labor_expand headers srcCols cm dv rows).getD (2 * i + 1) []).lookup "Labor_Type__c"
          = some (Value.str "Travel")) ∧
      (∀ c : String, c ∈ headers → c ≠ "Labor_Type__c" →
        (((labor_expand headers srcCols cm dv rows).getD (2 * i) []).lookup c
          = ((labor_expand headers srcCols cm dv rows).getD (2 * i + 1) []).lookup c) ∧
        (c ∈ srcCols →
          ((labor_expand headers srcCols cm dv rows).getD (2 * i) []).lookup c
            = some (cellOf rows[i] c)) ∧
        (c ∉ srcCols → ∀ s : String, cm.lookup c = some s → s ∈ srcCols →
          ((labor_expand headers srcCols cm dv rows).getD (2 * i) []).lookup c
            = some (cellOf rows[i] s)) ∧
        (c ∉ srcCols → (∀ s : String, cm.lookup c = some s → s ∉ srcCols) →
          ∀ d : String, dv.lookup c = some d →
          ((labor_expand headers srcCols cm dv rows).getD (2 * i) []).lookup c
            = some (Value.str d)))) := by
  refine ⟨labor_expand_length headers srcCols cm dv rows, ?_⟩
  intro i hi
  rw [labor_expand_getD_even headers srcCols cm dv rows i hi,
    labor_expand_getD_odd headers srcCols cm dv rows i hi]
  constructor
  · intro hlt
    unfold labor_row
    rw [lookup_map_headers _ _ _ hlt, lookup_map_headers _ _ _ hlt]
    unfold labor_cell
    simp
  · intro c hch hne
    unfold labor_row
    rw [lookup_map_headers _ _ _ hch, lookup_map_headers _ _ _ hch]
    refine ⟨?_, ?_, ?_, ?_⟩
    · simp only [labor_cell, if_neg hne]
    · intro hcs
      simp only [labor_cell, if_neg hne, if_pos hcs]
    · intro hcs s hs hss
      simp only [labor_cell, if_neg hne, if_neg hcs, hs, if_pos hss]
    · intro hcs hmap d hd
      cases hm : cm.lookup c with
      | none => simp only [labor_cell, if_neg hne, if_neg hcs, hm, hd]
      | some s =>
          have hss := hmap s hm
          simp only [labor_cell, if_neg hne, if_neg hcs, hm, if_neg hss, hd]

/-- Witness for claim C6 on a one-row filtered batch: the two expanded
rows take Labor then Travel, and the Name column repeats the source
value on the even row. -/
theorem labor_expand_correct_witness :
    ((labor_expand ["Labor_Type__c", "Name"] ["Name"] labor_pricing_mapping []
        [[("Name", Value.str "r1")]]).getD 0 []).lookup "Labor_Type__c"
      = some (Value.str "Labor") ∧
    ((labor_expand ["Labor_Type__c", "Name"] ["Name"] labor_pricing_mapping []
        [[("Name", Value.str "r1")]]).getD 1 []).lookup "Labor_Type__c"
      = some (Value.str "Travel") ∧
    ((labor_expand ["Labor_Type__c", "Name"] ["Name"] labor_pricing_mapping []
        [[("Name", Value.str "r1")]]).getD 0 []).lookup "Name"
      = some (Value.str "r1") :=
  ⟨((labor_expand_correct ["Labor_Type__c", "Name"] ["Name"] labor_pricing_mapping []
      [[("Name", Value.str "r1")]]).2 0 (by decide)).1 (by decide) |>.1,
   by decide, by decide⟩

/-- Counterexample to claim C7: update_parts_pricing has no try/except,
so once a record qualifies, an I/O failure of the template header read
escapes to the caller instead of being converted into a failure result;
the deduplicating variant missing-Name raise is therefore not the single
propagating fault among the public update operations. -/
theorem error_propagation_cex :
    update_parts_pricing (.error "File not found")
      ⟨["Need parts pricing", "Temp ID"],
       [[("Need parts pricing", Value.str "yes"), ("Temp ID", Value.str "A")]]⟩
      = .error "File not found" := by
  decide

/-- Claim C7 (amended): generic_update_logic converts every internal
fault into a status-false result carrying the message, because its body
sits in try/except; update_service_plan raises the missing-Name error to
its immediate caller; but the conversion does not hold at every public
update boundary: update_parts_pricing (like the other non-generic update
functions, which have no try/except) propagates a template read fault to
its caller whenever at least one record qualifies. -/
theorem error_handling_amended (e : String) (src : DataFrame)
    (cm dv : List (String × String)) (ref : Option DataFrame) :
    (generic_update_logic (.error e) src cm dv ref
      = ({ status := false, record_count := 0, error := some e }, none)) ∧
    ("Name" ∉ src.cols → ∀ hdrs : Except String (List String),
      update_service_plan hdrs src
        = .error "Source DataFrame must contain a Name column for service plan uniqueness.") ∧
    ("Need parts pricing" ∈ src.cols → parts_filtered src ≠ [] →
      update_parts_pricing (.error e) src = .error e) := by
  refine ⟨rfl, ?_, ?_⟩
  · intro hname hdrs
    unfold update_service_plan
    rw [if_neg hname]
  · intro hcol hne
    have hf : (parts_filtered src).isEmpty = false := by
      cases hp : parts_filtered src with
      | nil => exact absurd hp hne
      | cons a as => rfl
    unfold update_parts_pricing
    rw [if_pos hcol]
    simp only [hf, Bool.false_eq_true, if_false]

/-- Witness for claim C7 on concrete frames: the generic boundary eats
the fault and reports status false, the missing-Name batch raises, and
the qualifying Parts Pricing batch propagates the read fault. -/
theorem error_handling_amended_witness :
    (generic_update_logic (.error "io") ⟨["A"], [[("A", Value.str "x")]]⟩ [] [] none
      = ({ status := false, record_count := 0, error := some "io" }, none)) ∧
    (update_service_plan (.ok ["Name"]) ⟨["A"], [[("A", Value.str "x")]]⟩
      = .error "Source DataFrame must contain a Name column for service plan uniqueness.") ∧
    (update_parts_pricing (.error "io")
      ⟨["Need parts pricing"], [[("Need parts pricing", Value.str "yes")]]⟩ = .error "io") :=
  ⟨(error_handling_amended "io" ⟨["A"], [[("A", Value.str "x")]]⟩ [] [] none).1,
   (error_handling_amended "io" ⟨["A"], [[("A", Value.str "x")]]⟩ [] [] none).2.1
      (by decide) (.ok ["Name"]),
   (error_handling_amended "io"
      ⟨["Need parts pricing"], [[("Need parts pricing", Value.str "yes")]]⟩ [] [] none).2.2
      (by decide) (by decide)⟩

-- Lemmas on the issue report aggregation.

theorem mem_uniq_first_aux {α : Type} [DecidableEq α] (seen : List α) (l : List α) (a : α) :
    a ∈ uniq_first_aux seen l ↔ (a ∈ l ∧ a ∉ seen) := by
  induction l generalizing seen with
  | nil => simp [uniq_first_aux]
  | cons b bs ih =>
      unfold uniq_first_aux
      by_cases hb : b ∈ seen
      · rw [if_pos hb, ih]
        constructor
        · rintro ⟨h1, h2⟩
          exact ⟨List.mem_cons_of_mem _ h1, h2⟩
        · rintro ⟨h1, h2⟩
          rcases List.mem_cons.mp h1 with h3 | h4
          · rw [h3] at h2
            exact absurd hb h2
          · exact ⟨h4, h2⟩
      · rw [if_neg hb]
        constructor
        · intro h
          rcases List.mem_cons.mp h with h3 | h4
          · rw [h3]
            exact ⟨List.mem_cons_self _ _, hb⟩
          · obtain ⟨h5, h6⟩ := (ih _).mp h4
            exact ⟨List.mem_cons_of_mem _ h5,
              fun hs => h6 (List.mem_cons_of_mem _ hs)⟩
        · rintro ⟨h1, h2⟩
          by_cases hab : a = b
          · rw [hab]
            exact List.mem_cons_self _ _
          · rcases List.mem_cons.mp h1 with h3 | h4
            · exact absurd h3 hab
            · refine List.mem_cons_of_mem _ ((ih _).mpr ⟨h4, ?_⟩)
              intro hs
              rcases List.mem_cons.mp hs with h5 | h6
              · exact hab h5
              · exact h2 h6

theorem nodup_uniq_first_aux {α : Type} [DecidableEq α] (seen : List α) (l : List α) :
    (uniq_first_aux seen l).Nodup := by
  induction l generalizing seen with
  | nil => simp [uniq_first_aux]
  | cons b bs ih =>
      unfold uniq_first_aux
      by_cases hb : b ∈ seen
      · rw [if_pos hb]
        exact ih seen
      · rw [if_neg hb]
        refine List.nodup_cons.mpr ⟨?_, ih _⟩
        intro hmem
        exact ((mem_uniq_first_aux _ _ _).mp hmem).2 (List.mem_cons_self _ _)

theorem joinSep_ne_empty_of_mem (l : List String) (s : String)
    (hs : s ∈ l) (hne : s ≠ "") : joinSep "; " l ≠ "" := by
  cases l with
  | nil => simp at hs
  | cons a as =>
      cases as with
      | nil =>
          have : s = a := by simpa using hs
          rw [← this]
          simpa [joinSep] using hne
      | cons b bs =>
          intro hcon
          have hL := congrArg String.length hcon
          rw [show joinSep "; " (a :: b :: bs)
              = a ++ "; " ++ joinSep "; " (b :: bs) from rfl] at hL
          simp only [String.length_append] at hL
          have h2 : String.length "; " = 2 := rfl
          have h0 : String.length "" = 0 := rfl
          omega

theorem exists_ne_empty_of_joinSep (l : List String) (hnd : l.Nodup)
    (hne : joinSep "; " l ≠ "") : ∃ s ∈ l, s ≠ "" := by
  cases l with
  | nil => simp [joinSep] at hne
  | cons a as =>
      cases as with
      | nil =>
          refine ⟨a, List.mem_cons_self _ _, ?_⟩
          simpa [joinSep] using hne
      | cons b bs =>
          by_cases ha : a = ""
          · have hb : b ≠ "" := by
              intro hbe
              have hnin := (List.nodup_cons.mp hnd).1
              rw [ha, ← hbe] at hnin
              exact hnin (List.mem_cons_self _ _)
            exact ⟨b, List.mem_cons_of_mem _ (List.mem_cons_self _ _), hb⟩
          · exact ⟨a, List.mem_cons_self _ _, ha⟩

theorem col_string_ne_empty_iff (issues : List Issue) (i : Nat) (c : String) :
    col_string issues i c ≠ "" ↔
      ∃ x ∈ issues, x.row_index = i ∧ x.column_name = c ∧ x.issue ≠ "" := by
  unfold col_string
  constructor
  · intro h
    obtain ⟨s, hs, hsne⟩ :=
      exists_ne_empty_of_joinSep _ (nodup_uniq_first_aux [] _) h
    have hs2 : s ∈ (issues.filter
        (fun x => x.row_index == i && x.column_name == c)).map (fun x => x.issue) :=
      ((mem_uniq_first_aux [] _ s).mp hs).1
    obtain ⟨x, hx, hxs⟩ := List.mem_map.mp hs2
    have hxf := List.mem_filter.mp hx
    have hcond := hxf.2
    simp only [Bool.and_eq_true, beq_iff_eq] at hcond
    exact ⟨x, hxf.1, hcond.1, hcond.2, by rw [hxs]; exact hsne⟩
  · rintro ⟨x, hx, hri, hcn, hine⟩
    apply joinSep_ne_empty_of_mem _ x.issue _ hine
    rw [uniq_first, mem_uniq_first_aux]
    refine ⟨List.mem_map_of_mem _ (List.mem_filter.mpr ⟨hx, ?_⟩), by simp⟩
    simp [hri, hcn]

theorem issue_row_flag_iff (issues : List Issue) (i : Nat) :
    issue_row_flag issues i = true ↔
      ∃ x ∈ issues, x.row_index = i ∧ x.issue ≠ "" := by
  unfold issue_row_flag
  rw [Bool.or_eq_true, List.any_eq_true]
  constructor
  · rintro (⟨s, hs, hsne⟩ | hsum)
    · obtain ⟨c, hc, hcs⟩ := List.mem_map.mp hs
      have hcne : col_string issues i c ≠ "" := by
        rw [hcs]
        exact bne_iff_ne.mp hsne
      obtain ⟨x, hx, h1, _, h3⟩ := (col_string_ne_empty_iff issues i c).mp hcne
      exact ⟨x, hx, h1, h3⟩
    · have hsum2 : row_summary issues i ≠ "" := bne_iff_ne.mp hsum
      unfold row_summary at hsum2
      have hnil : ((issue_columns issues).map (col_string issues i)).filter
          (fun s => s ≠ "") ≠ [] := by
        intro h0
        rw [h0] at hsum2
        exact hsum2 rfl
      obtain ⟨s, hs⟩ := List.exists_mem_of_ne_nil _ hnil
      have hsf := List.mem_filter.mp hs
      obtain ⟨c, hc, hcs⟩ := List.mem_map.mp hsf.1
      have hcne : col_string issues i c ≠ "" := by
        rw [hcs]
        exact of_decide_eq_true hsf.2
      obtain ⟨x, hx, h1, _, h3⟩ := (col_string_ne_empty_iff issues i c).mp hcne
      exact ⟨x, hx, h1, h3⟩
  · rintro ⟨x, hx, h1, h3⟩
    left
    refine ⟨col_string issues i x.column_name, ?_, ?_⟩
    · refine List.mem_map_of_mem _ ?_
      unfold issue_columns uniq_first
      rw [mem_uniq_first_aux]
      exact ⟨List.mem_map_of_mem _ hx, by simp⟩
    · rw [bne_iff_ne]
      exact (col_string_ne_empty_iff issues i x.column_name).mpr ⟨x, hx, h1, rfl, h3⟩

/-- Counterexample to claim C8: the single row whose Temp ID is the
whitespace-only string is blank in the sense of the claim and triggers
the identifier-blank finding, yet it is retained in the final persisted
report, because the report filter checks notna only and a whitespace
string is not NaN. -/
theorem report_blank_id_cex :
    is_blank (cellOf [("Temp ID", Value.str " ")] "Temp ID") = true ∧
    final_report [[("Temp ID", Value.str " ")]]
        (temp_id_blank_issues "Service Plan" [[("Temp ID", Value.str " ")]])
      = [(0, [("Temp ID", Value.str " ")])] := by
  decide

/-- Claim C8 (amended): a data row enters the persisted report exactly
when some consolidated finding with a non-empty message points at its
row index and its Temp ID is not missing (NaN); the Temp ID filter is
null-only, so a row with a whitespace-only identifier is retained
together with its findings, while a row with a missing identifier is
excluded even though its identifier-blank finding was generated. -/
theorem report_filter_correct (rows : List Row) (issues : List Issue)
    (i : Nat) (r : Row) :
    ((i, r) ∈ final_report rows issues ↔
      ((i, r) ∈ rows.enum ∧ (∃ x ∈ issues, x.row_index = i ∧ x.issue ≠ "") ∧
        (cellOf r "Temp ID").isna = false)) ∧
    ((cellOf r "Temp ID").isna = true → (i, r) ∉ final_report rows issues) := by
  have hmem : (i, r) ∈ final_report rows issues ↔
      ((i, r) ∈ rows.enum ∧ (∃ x ∈ issues, x.row_index = i ∧ x.issue ≠ "") ∧
        (cellOf r "Temp ID").isna = false) := by
    unfold final_report
    simp only [List.mem_filter, Bool.not_eq_true', issue_row_flag_iff]
    tauto
  refine ⟨hmem, ?_⟩
  intro hna hcon
  rw [hmem.mp hcon |>.2.2] at hna
  exact Bool.false_ne_true hna

/-- Witness for claim C8: the whitespace-identifier row is retained by
the membership characterization, and the missing-identifier row is
excluded. -/
theorem report_filter_correct_witness :
    (0, [("Temp ID", Value.str " ")]) ∈
      final_report [[("Temp ID", Value.str " ")]]
        (temp_id_blank_issues "Service Plan" [[("Temp ID", Value.str " ")]]) ∧
    (0, [("Temp ID", Value.na)]) ∉
      final_report [[("Temp ID", Value.na)]]
        (temp_id_blank_issues "Service Plan" [[("Temp ID", Value.na)]]) :=
  ⟨(report_filter_correct [[("Temp ID", Value.str " ")]]
      (temp_id_blank_issues "Service Plan" [[("Temp ID", Value.str " ")]])
      0 [("Temp ID", Value.str " ")]).1.mpr
      ⟨by decide,
       ⟨{ template_name := "Service Plan", row_index := 0, temp_id := Value.str " ",
          column_name := "Temp ID", issue := "Temp ID is blank" }, by decide, by decide⟩,
       by decide⟩,
   (report_filter_correct [[("Temp ID", Value.na)]]
      (temp_id_blank_issues "Service Plan" [[("Temp ID", Value.na)]])
      0 [("Temp ID", Value.na)]).2 (by decide)⟩

end UpdateLogic
